import Mathlib

/-!
# Verification of the arbiter distributed-lock core

A shallow embedding of the arbiter Redis distributed lock
(`impl.go`, `internal/lua/scripts.go`, options from the configuration file)
and proofs of the specified properties.

The three Lua scripts each operate on a single key (`KEYS[1]`), so the
store is modelled as the state of the record at that one key:
`none` when no record exists, `some r` when a record with an `owner`
hash field and a TTL is present.  Durations are Go `time.Duration`
values, i.e. signed integers counting nanoseconds; `Milliseconds()` is
truncating division by 10^6 (Go integer division truncates toward zero,
`Int.tdiv`).
-/

namespace Arbiter

/-- The remote lock record stored at the lock key: a Redis hash with the
single semantically meaningful field `owner`, plus the key TTL in
milliseconds (`none` when the key has no expiry, as is the case between
`hset` and `pexpire` inside the TryLock script). -/
structure Record where
  owner : String
  ttl : Option Int
deriving DecidableEq, Repr

/-- The store state at one lock key: `none` when no record exists. -/
abbrev Store := Option Record

/-- `redis.call('exists', KEYS[1])`: 1 when the key exists, 0 otherwise. -/
def redisExists (s : Store) : Int :=
  if s.isSome then 1 else 0

/-- `redis.call('hset', KEYS[1], 'owner', v)`: creates the hash (with no
TTL) when the key is absent, otherwise overwrites the `owner` field. -/
def redisHsetOwner (s : Store) (v : String) : Store :=
  match s with
  | none => some { owner := v, ttl := none }
  | some r => some { r with owner := v }

/-- `redis.call('hget', KEYS[1], 'owner')`: the owner field, or nil
(`none`) when the key is absent. -/
def redisHgetOwner (s : Store) : Option String :=
  s.map Record.owner

/-- `redis.call('pexpire', KEYS[1], ms)`: returns 0 when the key does not
exist; otherwise sets the TTL and returns 1.  A non-positive `ms` deletes
the key immediately (Redis expiry semantics). -/
def redisPexpire (s : Store) (ms : Int) : Store × Int :=
  match s with
  | none => (none, 0)
  | some r => if ms ≤ 0 then (none, 1) else (some { r with ttl := some ms }, 1)

/-- `redis.call('del', KEYS[1])`: deletes the key, returning the number of
keys removed. -/
def redisDel (s : Store) : Store × Int :=
  match s with
  | none => (none, 0)
  | some _ => (none, 1)

/-- The `lua.TryLock` script: if the key does not exist, `hset` the owner,
`pexpire` with the given TTL and return 1; otherwise return 0. -/
def luaTryLock (s : Store) (token : String) (ttlMs : Int) : Store × Int :=
  if redisExists s = 0 then
    let s1 := redisHsetOwner s token
    let s2 := (redisPexpire s1 ttlMs).1
    (s2, 1)
  else
    (s, 0)

/-- The `lua.Unlock` script: if the owner field equals the argument,
delete the key and return `del`'s result; otherwise return 0. -/
def luaUnlock (s : Store) (token : String) : Store × Int :=
  if redisHgetOwner s = some token then
    redisDel s
  else
    (s, 0)

/-- The `lua.Refresh` script: if the owner field equals the argument,
`pexpire` with the given TTL and return its result; otherwise return 0. -/
def luaRefresh (s : Store) (token : String) (ttlMs : Int) : Store × Int :=
  if redisHgetOwner s = some token then
    redisPexpire s ttlMs
  else
    (s, 0)

/-- `LockOptions`: the configuration of one lock handle.  Durations are
Go `time.Duration` nanosecond counts. -/
structure LockOptions where
  waitTimeout : Int
  leaseTime : Int
  enableWatchDog : Bool
  watchDogTimeout : Int
deriving DecidableEq, Repr

/-- Go `Duration.Milliseconds()`: integer division by 10^6, truncating
toward zero. -/
def durMilliseconds (d : Int) : Int :=
  d.tdiv 1000000

/-- The errors the lock operations can return: `ErrLockNotHeld`,
`ErrLockTimeout`, the caller context cancellation error `ctx.Err()`, and
a store communication failure.  They are pairwise distinct error values
in the source. -/
inductive GoErr
  | notHeld
  | lockTimeout
  | ctxCanceled
  | storeFailure
deriving DecidableEq, Repr

/-- The effective lease computed at the top of both `TryLock` and
`Refresh`: `leaseTime := l.options.LeaseTime; if l.options.EnableWatchDog
\x7b leaseTime = l.options.WatchDogTimeout \x7d`. -/
def effectiveLease (o : LockOptions) : Int :=
  if o.enableWatchDog then o.watchDogTimeout else o.leaseTime

/-- The handle-local watchdog bookkeeping: whether `watchDogOnce` has
already fired, and how many watchdog goroutines were ever launched. -/
structure HandleState where
  onceDone : Bool
  tasks : Nat
deriving DecidableEq, Repr

/-- A freshly constructed handle (`newLock`): the once guard untriggered
and no goroutine launched. -/
def initialHandle : HandleState :=
  { onceDone := false, tasks := 0 }

/-- `startWatchDog`: the body runs under `l.watchDogOnce.Do`, so it
launches a goroutine only the first time it is ever called on the
handle. -/
def startWatchDog (h : HandleState) : HandleState :=
  if h.onceDone then h else { onceDone := true, tasks := h.tasks + 1 }

/-- The arguments a script invocation sends to the store: the handle
value (token) and, for TryLock/Refresh, the TTL in milliseconds. -/
structure EvalArgs where
  value : String
  ttlMs : Option Int
deriving DecidableEq, Repr

/-- A sample configuration: defaults (no wait timeout, 30 s lease,
watchdog disabled, 30 s watchdog interval). -/
def sampleNoWD : LockOptions :=
  ⟨0, 30000000000, false, 30000000000⟩

/-- A sample configuration with the watchdog enabled and a 10 s lease
that differs from the 30 s watchdog interval. -/
def sampleWD : LockOptions :=
  ⟨0, 10000000000, true, 30000000000⟩

/-- The observable outcome of `lockImpl.TryLock`: the returned boolean,
the resulting store and handle state, and the arguments sent to the
store. -/
structure TryLockResult where
  acquired : Bool
  store : Store
  handle : HandleState
  sent : EvalArgs
deriving DecidableEq, Repr

/-- `lockImpl.TryLock` (the non-error path): computes the effective
lease, evals `lua.TryLock` with the handle value and the lease in
milliseconds; on a 0 reply returns false; on success starts the watchdog
when `EnableWatchDog` is set and returns true. -/
def goTryLock (o : LockOptions) (token : String) (h : HandleState) (s : Store) :
    TryLockResult :=
  let ms := durMilliseconds (effectiveLease o)
  let res := luaTryLock s token ms
  { acquired := res.2 != 0
    store := res.1
    handle :=
      if res.2 != 0 then
        if o.enableWatchDog then startWatchDog h else h
      else h
    sent := { value := token, ttlMs := some ms } }

/-- `lockImpl.Unlock` (the store interaction: the non-error path after
the watchdog has been stopped): evals `lua.Unlock` with the handle
value; a 0 reply becomes `ErrLockNotHeld`, a 1 reply becomes nil. -/
def goUnlock (token : String) (s : Store) : Store × Option GoErr :=
  let res := luaUnlock s token
  if res.2 = 0 then (res.1, some GoErr.notHeld) else (res.1, none)

/-- `lockImpl.Refresh` (the non-error path): computes the effective
lease, evals `lua.Refresh` with the handle value and the lease in
milliseconds; a 0 reply becomes `ErrLockNotHeld`, a 1 reply becomes nil.
Also records the arguments sent to the store. -/
def goRefresh (o : LockOptions) (token : String) (s : Store) :
    (Store × Option GoErr) × EvalArgs :=
  let ms := durMilliseconds (effectiveLease o)
  let res := luaRefresh s token ms
  (if res.2 = 0 then (res.1, some GoErr.notHeld) else (res.1, none),
   { value := token, ttlMs := some ms })

/-- One iteration of the `Lock` retry loop, as seen from the loop: the
`TryLock` call either fails with a store error, acquires the lock, or is
contended; in the contended case the environment supplies the wall-clock
time (nanoseconds) observed at the `time.Now().After(deadline)` check and
whether `ctx.Done()` is ready at the subsequent `select`. -/
inductive Attempt
  | err
  | acquired
  | contended (now : Int) (ctxDone : Bool)
deriving DecidableEq, Repr

/-- The outcome of the `Lock` loop on a finite trace of attempts:
`returned e` when the loop returned (`none` = nil, acquired), `running`
when the trace ended with the loop still going. -/
inductive LockOutcome
  | returned (e : Option GoErr)
  | running
deriving DecidableEq, Repr

/-- `lockImpl.Lock`: `deadline := time.Now().Add(WaitTimeout)` is
computed once at call start (`start` is that `time.Now()`); then the loop
calls `TryLock`, returns its error on failure, returns nil on
acquisition, otherwise checks `WaitTimeout > 0 && time.Now().After(deadline)`
(returning `ErrLockTimeout`), then selects on `ctx.Done()` (returning
`ctx.Err()`) versus the 100 ms retry timer. -/
def goLock (o : LockOptions) (start : Int) : List Attempt → LockOutcome
  | [] => LockOutcome.running
  | Attempt.err :: _ => LockOutcome.returned (some GoErr.storeFailure)
  | Attempt.acquired :: _ => LockOutcome.returned none
  | Attempt.contended now ctxDone :: rest =>
    if 0 < o.waitTimeout ∧ start + o.waitTimeout < now then
      LockOutcome.returned (some GoErr.lockTimeout)
    else if ctxDone then
      LockOutcome.returned (some GoErr.ctxCanceled)
    else
      goLock o start rest

/-- The retry delay of the `Lock` loop, nanoseconds
(`time.After(100 * time.Millisecond)`). -/
def lockRetryDelay : Int := 100 * 1000000

/-- One wake-up of the watchdog goroutine's `select`: the ticker fires
(and the `Refresh` store round-trip either completes or fails with a
communication error), `l.watchDogCtx` is done (cancel raised by
`Unlock`), or the operation context passed to the initiating `TryLock`
is done. -/
inductive WDEvent
  | tick
  | tickStoreErr
  | cancelSignal
  | ctxCancelled
deriving DecidableEq, Repr

/-- Whether the watchdog goroutine has returned.  `stopped` means the
goroutine returned, at which point its deferred `close(l.watchDogDone)`
has run, i.e. completion is signalled. -/
inductive WDStatus
  | running
  | stopped
deriving DecidableEq, Repr

/-- The watchdog ticker period: `l.options.WatchDogTimeout / 3`
(Go integer division of the nanosecond count). -/
def watchdogTickInterval (o : LockOptions) : Int :=
  o.watchDogTimeout.tdiv 3

/-- The watchdog goroutine loop (`startWatchDog`'s inner `for`/`select`)
over a finite trace of wake-ups: on a tick it calls `l.Refresh` with the
handle's own token, continuing only when that returns nil and returning
(stopping) on any error; on either context's cancellation it returns at
once.  The result is the number of `Refresh` calls performed, whether
the goroutine stopped (and hence closed `watchDogDone`), and the final
store. -/
def watchdogRun (o : LockOptions) (token : String) :
    List WDEvent → Store → Nat × WDStatus × Store
  | [], s => (0, WDStatus.running, s)
  | WDEvent.tick :: rest, s =>
    match ((goRefresh o token s).1 : Store × Option GoErr) with
    | (s1, none) =>
      let t := watchdogRun o token rest s1
      (t.1 + 1, t.2.1, t.2.2)
    | (s1, some _) => (1, WDStatus.stopped, s1)
  | WDEvent.tickStoreErr :: _, s => (1, WDStatus.stopped, s)
  | WDEvent.cancelSignal :: _, s => (0, WDStatus.stopped, s)
  | WDEvent.ctxCancelled :: _, s => (0, WDStatus.stopped, s)

/-- The operations of a handle's lifetime as they affect the watchdog
start guard: `wdStart` is a successful `TryLock` with the watchdog
enabled (the only caller of `startWatchDog`); `passive` is any other
operation on the handle (failed `TryLock`, `Unlock`, `Refresh`, `Lock`
iterations) — none of them resets `watchDogOnce`. -/
inductive HandleOp
  | wdStart
  | passive
deriving DecidableEq, Repr

/-- Runs a handle-lifetime sequence of operations against the watchdog
start guard. -/
def runHandleOps : List HandleOp → HandleState → HandleState
  | [], h => h
  | HandleOp.wdStart :: rest, h => runHandleOps rest (startWatchDog h)
  | HandleOp.passive :: rest, h => runHandleOps rest h

/-- The two threads contending for the handle's mutex in the
`Unlock`-versus-watchdog scenario. -/
inductive Tid
  | wd
  | un
deriving DecidableEq, Repr

/-- Program counter of the watchdog goroutine: in the `select` (mutex
not held); ticker fired and inside `l.Refresh` waiting on `l.mu.Lock()`;
holding `l.mu` and executing the refresh eval; returned from the loop
with the deferred `close(l.watchDogDone)` pending; finished with
`watchDogDone` closed. -/
inductive WdPc
  | sel
  | acq
  | refr
  | ret
  | dead
deriving DecidableEq, Repr

/-- Program counter of a thread executing `lockImpl.Unlock`: before
`l.mu.Lock()`; holding `l.mu` and about to call `l.watchDogCancel()`;
holding `l.mu` and blocked on `<-l.watchDogDone`; holding `l.mu` and
executing the conditional-delete eval; returned (mutex released). -/
inductive UnPc
  | start
  | cancel
  | wait
  | del
  | fin
deriving DecidableEq, Repr

/-- Joint state of the watchdog goroutine and an `Unlock` call on the
same handle: the two program counters, the holder of `l.mu`, whether
`l.watchDogCtx` has been cancelled, and whether `l.watchDogDone` is
closed. -/
structure Sys where
  wd : WdPc
  un : UnPc
  mu : Option Tid
  cancelled : Bool
  done : Bool
deriving DecidableEq, Repr

/-- Initial state: watchdog in its select, `Unlock` about to run, mutex
free, not cancelled, done not closed. -/
def initSys : Sys :=
  { wd := WdPc.sel, un := UnPc.start, mu := none, cancelled := false, done := false }

/-- Interleaving semantics of the two threads.  Mutex semantics: a
thread acquires `l.mu` only when no thread holds it, and releases it on
return (`defer l.mu.Unlock()`). -/
inductive Step : Sys → Sys → Prop
  | tickFires (s : Sys) : s.wd = WdPc.sel →
      Step s { s with wd := WdPc.acq }
  | wdSeesCancel (s : Sys) : s.wd = WdPc.sel → s.cancelled = true →
      Step s { s with wd := WdPc.ret }
  | wdAcquires (s : Sys) : s.wd = WdPc.acq → s.mu = none →
      Step s { s with wd := WdPc.refr, mu := some Tid.wd }
  | wdRefreshOk (s : Sys) : s.wd = WdPc.refr →
      Step s { s with wd := WdPc.sel, mu := none }
  | wdRefreshErr (s : Sys) : s.wd = WdPc.refr →
      Step s { s with wd := WdPc.ret, mu := none }
  | wdCloses (s : Sys) : s.wd = WdPc.ret →
      Step s { s with wd := WdPc.dead, done := true }
  | unAcquires (s : Sys) : s.un = UnPc.start → s.mu = none →
      Step s { s with un := UnPc.cancel, mu := some Tid.un }
  | unCancels (s : Sys) : s.un = UnPc.cancel →
      Step s { s with un := UnPc.wait, cancelled := true }
  | unSeesDone (s : Sys) : s.un = UnPc.wait → s.done = true →
      Step s { s with un := UnPc.del }
  | unDeletes (s : Sys) : s.un = UnPc.del →
      Step s { s with un := UnPc.fin, mu := none }

/-- States reachable from `initSys` under the interleaving semantics. -/
def Reachable (s : Sys) : Prop :=
  Relation.ReflTransGen Step initSys s

/-- The inductive invariant of the `Unlock`-versus-watchdog system:
`watchDogDone` closes only after the watchdog goroutine is finished;
each thread holds the mutex throughout its critical section; and the
delete eval runs only after `watchDogDone` closed. -/
def SysInv (s : Sys) : Prop :=
  (s.done = true → s.wd = WdPc.dead) ∧
  (s.wd = WdPc.refr → s.mu = some Tid.wd) ∧
  ((s.un = UnPc.cancel ∨ s.un = UnPc.wait ∨ s.un = UnPc.del) → s.mu = some Tid.un) ∧
  (s.un = UnPc.del → s.done = true)

/-- C1: for every key, token and positive ttl, the conditional-create
script (`lua.TryLock`) returns 1 and creates a record with
`owner = token` and the given TTL exactly when no record exists at the
key; when a record already exists it returns 0 and leaves the existing
record's owner and TTL unchanged — it never overwrites an existing
record and the record it creates always carries a TTL. -/
theorem tryLock_conditional_create (token : String) (ttl : Int) (s : Store)
    (httl : 0 < ttl) :
    (s = none →
      luaTryLock s token ttl = (some { owner := token, ttl := some ttl }, 1)) ∧
    (∀ r : Record, s = some r → luaTryLock s token ttl = (some r, 0)) := by
  constructor
  · rintro rfl
    simp [luaTryLock, redisExists, redisHsetOwner, redisPexpire, not_le.mpr httl]
  · rintro r rfl
    simp [luaTryLock, redisExists]

/-- Witness for C1 at a concrete input: creating at an empty key with a
30000 ms TTL succeeds and stores the token, and creating over an
existing record is refused. -/
theorem tryLock_conditional_create_witness :
    luaTryLock none "tok" 30000 = (some { owner := "tok", ttl := some 30000 }, 1) ∧
    luaTryLock (some { owner := "other", ttl := some 7 }) "tok" 30000 =
      (some { owner := "other", ttl := some 7 }, 0) :=
  ⟨(tryLock_conditional_create "tok" 30000 none (by decide)).1 rfl,
   (tryLock_conditional_create "tok" 30000 (some { owner := "other", ttl := some 7 })
      (by decide)).2 _ rfl⟩

/-- C2: `Unlock` deletes the remote record and returns nil exactly when
the record's owner equals the handle's token; in every other case
(record absent, or owned by a different token — which covers a handle
that never successfully locked, since its fresh random token cannot be
the record's owner) it returns `ErrLockNotHeld` and the record is left
unchanged. -/
theorem unlock_conditional_delete (token : String) (s : Store) :
    (∀ r : Record, s = some r → r.owner = token → goUnlock token s = (none, none)) ∧
    (redisHgetOwner s ≠ some token →
      goUnlock token s = (s, some GoErr.notHeld)) ∧
    (∀ s1 : Store, ∀ e : Option GoErr, goUnlock token s = (s1, e) → e = none →
      redisHgetOwner s = some token) := by
  refine ⟨?_, ?_, ?_⟩
  · rintro r rfl rfl
    simp [goUnlock, luaUnlock, redisHgetOwner, redisDel]
  · intro hne
    simp [goUnlock, luaUnlock, hne]
  · intro s1 e hres he
    by_contra hno
    rw [show goUnlock token s = (s, some GoErr.notHeld) by
          simp [goUnlock, luaUnlock, hno]] at hres
    cases hres
    exact Option.noConfusion he

/-- Witness for C2 at concrete inputs: unlocking one's own record
deletes it and returns nil; unlocking a record held by a different token
returns `ErrLockNotHeld` and leaves the record untouched. -/
theorem unlock_conditional_delete_witness :
    goUnlock "me" (some { owner := "me", ttl := some 9 }) = (none, none) ∧
    goUnlock "me" (some { owner := "peer", ttl := some 9 }) =
      (some { owner := "peer", ttl := some 9 }, some GoErr.notHeld) :=
  ⟨(unlock_conditional_delete "me" (some { owner := "me", ttl := some 9 })).1 _ rfl rfl,
   (unlock_conditional_delete "me" (some { owner := "peer", ttl := some 9 })).2.1
      (by decide)⟩

/-- C5: the acquisition script decides solely on key existence — its
reply is the same whatever token asks — and in particular a second
acquisition attempt whose token equals the existing record's owner is
rejected exactly like a foreign contender: no reentrance. -/
theorem tryLock_no_reentrance (token : String) (ttl : Int) (r : Record)
    (hown : r.owner = token) :
    luaTryLock (some r) token ttl = (some r, 0) ∧
    (∀ s : Store, ∀ t1 t2 : String,
      (luaTryLock s t1 ttl).2 = (luaTryLock s t2 ttl).2) := by
  constructor
  · simp [luaTryLock, redisExists]
  · intro s t1 t2
    cases s <;> simp [luaTryLock, redisExists]

/-- Witness for C5 at a concrete input: re-acquiring with the very token
that owns the record is refused and changes nothing. -/
theorem tryLock_no_reentrance_witness :
    luaTryLock (some { owner := "me", ttl := some 30000 }) "me" 30000 =
      (some { owner := "me", ttl := some 30000 }, 0) :=
  (tryLock_no_reentrance "me" 30000 { owner := "me", ttl := some 30000 } rfl).1

/-- C6: for every key, token and positive ttl, the
conditional-expiry-reset script (`lua.Refresh`) resets the record's TTL
to the given value and returns 1 exactly when the existing record's
owner equals the token; otherwise it returns 0 and changes nothing, and
in that case `Refresh` surfaces `ErrLockNotHeld` to its caller. -/
theorem refresh_conditional_expiry_reset (o : LockOptions) (token : String)
    (ttl : Int) (s : Store) (httl : 0 < ttl) :
    (∀ r : Record, s = some r → r.owner = token →
      luaRefresh s token ttl = (some { r with ttl := some ttl }, 1)) ∧
    (redisHgetOwner s ≠ some token →
      luaRefresh s token ttl = (s, 0) ∧
      (goRefresh o token s).1 = (s, some GoErr.notHeld)) := by
  constructor
  · rintro r rfl rfl
    simp [luaRefresh, redisHgetOwner, redisPexpire, not_le.mpr httl]
  · intro hne
    refine ⟨by simp [luaRefresh, hne], ?_⟩
    simp [goRefresh, luaRefresh, hne]

/-- Witness for C6 at concrete inputs: refreshing one's own record
resets its TTL and returns 1; refreshing a record owned by someone else
returns 0, changes nothing, and `Refresh` reports `ErrLockNotHeld`. -/
theorem refresh_conditional_expiry_reset_witness :
    luaRefresh (some { owner := "me", ttl := some 3 }) "me" 30000 =
      (some { owner := "me", ttl := some 30000 }, 1) ∧
    (goRefresh sampleNoWD "me" (some { owner := "peer", ttl := some 3 })).1 =
      (some { owner := "peer", ttl := some 3 }, some GoErr.notHeld) :=
  ⟨(refresh_conditional_expiry_reset sampleNoWD
      "me" 30000 (some { owner := "me", ttl := some 3 }) (by decide)).1 _ rfl rfl,
   ((refresh_conditional_expiry_reset sampleNoWD
      "me" 30000 (some { owner := "peer", ttl := some 3 }) (by decide)).2
      (by decide)).2⟩

/-- C3: the TTL both `TryLock` and `Refresh` send to the store is the
watchdog interval (in milliseconds) whenever the watchdog is enabled and
the configured lease time whenever it is disabled; while the watchdog is
enabled the configured lease time never reaches the store (whenever it
differs from the watchdog interval at all). -/
theorem effective_ttl_sent (o : LockOptions) (token : String)
    (h : HandleState) (s : Store) :
    (o.enableWatchDog = true →
      (goTryLock o token h s).sent.ttlMs = some (durMilliseconds o.watchDogTimeout) ∧
      (goRefresh o token s).2.ttlMs = some (durMilliseconds o.watchDogTimeout) ∧
      (durMilliseconds o.leaseTime ≠ durMilliseconds o.watchDogTimeout →
        (goTryLock o token h s).sent.ttlMs ≠ some (durMilliseconds o.leaseTime) ∧
        (goRefresh o token s).2.ttlMs ≠ some (durMilliseconds o.leaseTime))) ∧
    (o.enableWatchDog = false →
      (goTryLock o token h s).sent.ttlMs = some (durMilliseconds o.leaseTime) ∧
      (goRefresh o token s).2.ttlMs = some (durMilliseconds o.leaseTime)) := by
  have ht : (goTryLock o token h s).sent.ttlMs =
      some (durMilliseconds (effectiveLease o)) := rfl
  have hr : (goRefresh o token s).2.ttlMs =
      some (durMilliseconds (effectiveLease o)) := rfl
  constructor
  · intro hw
    have heff : effectiveLease o = o.watchDogTimeout := by
      simp [effectiveLease, hw]
    rw [ht, hr, heff]
    refine ⟨rfl, rfl, fun hne => ⟨?_, ?_⟩⟩
    · simpa using fun hc => hne hc.symm
    · simpa using fun hc => hne hc.symm
  · intro hw
    have heff : effectiveLease o = o.leaseTime := by
      simp [effectiveLease, hw]
    rw [ht, hr, heff]
    exact ⟨rfl, rfl⟩

/-- Witness for C3 at a concrete configuration: watchdog enabled with a
30 s interval and a 10 s lease — both operations send 30000 ms, never
10000 ms. -/
theorem effective_ttl_sent_witness :
    (goTryLock sampleWD "t" initialHandle none).sent.ttlMs = some 30000 ∧
    (goTryLock sampleWD "t" initialHandle none).sent.ttlMs ≠ some 10000 := by
  have h := effective_ttl_sent sampleWD "t" initialHandle none
  obtain ⟨h1, h2, h3⟩ := h.1 rfl
  have hd10 : durMilliseconds sampleWD.leaseTime = 10000 := by decide
  have hd30 : durMilliseconds sampleWD.watchDogTimeout = 30000 := by decide
  refine ⟨by rw [h1, hd30], ?_⟩
  have hne := (h3 (by decide)).1
  rw [hd10] at hne
  exact hne

/-- C4: the `Lock` loop returns nil when an attempt acquires, propagates
a store error, returns the context's error when cancellation is observed
(and the deadline has not fired first), and returns `ErrLockTimeout` —
an error distinct from the context error — only when `WaitTimeout > 0`
and the once-computed deadline `start + WaitTimeout` has elapsed; with
`WaitTimeout = 0` it never returns the timeout error. -/
theorem lock_loop_outcomes (o : LockOptions) (start : Int) (tr : List Attempt) :
    (goLock o start (Attempt.err :: tr) =
      LockOutcome.returned (some GoErr.storeFailure)) ∧
    (goLock o start (Attempt.acquired :: tr) = LockOutcome.returned none) ∧
    (∀ now : Int, 0 < o.waitTimeout → start + o.waitTimeout < now →
      goLock o start (Attempt.contended now true :: tr) =
        LockOutcome.returned (some GoErr.lockTimeout)) ∧
    (∀ now : Int, ¬(0 < o.waitTimeout ∧ start + o.waitTimeout < now) →
      goLock o start (Attempt.contended now true :: tr) =
        LockOutcome.returned (some GoErr.ctxCanceled)) ∧
    (o.waitTimeout = 0 →
      goLock o start tr ≠ LockOutcome.returned (some GoErr.lockTimeout)) ∧
    GoErr.lockTimeout ≠ GoErr.ctxCanceled := by
  refine ⟨rfl, rfl, ?_, ?_, ?_, by decide⟩
  · intro now h1 h2
    simp [goLock, h1, h2]
  · intro now hno
    simp [goLock, hno]
  · intro hz
    induction tr with
    | nil => simp [goLock]
    | cons a rest ih =>
      cases a with
      | err => simp [goLock]
      | acquired => simp [goLock]
      | contended now ctxDone =>
        rw [goLock]
        have hcond : ¬(0 < o.waitTimeout ∧ start + o.waitTimeout < now) := by
          rintro ⟨h1, _⟩
          omega
        rw [if_neg hcond]
        cases ctxDone with
        | false => simpa using ih
        | true => simp

/-- Witness for C4 at concrete inputs: with a 2 s wait timeout and the
check occurring past the deadline, a contended attempt yields the
timeout error, and with timeout 0 a cancelled context yields the
context error. -/
theorem lock_loop_outcomes_witness :
    goLock ⟨2000000000, 30000000000, false, 30000000000⟩ 0
        [Attempt.contended 3000000000 true] =
      LockOutcome.returned (some GoErr.lockTimeout) ∧
    goLock sampleNoWD 0 [Attempt.contended 3000000000 true] =
      LockOutcome.returned (some GoErr.ctxCanceled) :=
  ⟨(lock_loop_outcomes ⟨2000000000, 30000000000, false, 30000000000⟩ 0 []).2.2.1
      3000000000 (by decide) (by decide),
   (lock_loop_outcomes sampleNoWD 0 []).2.2.2.1 3000000000 (by decide)⟩

/-- C10: the deadline check happens only after a `TryLock` attempt, so
every `Lock` call makes at least one acquisition attempt: even when
`WaitTimeout` is positive and the deadline has already elapsed at call
start, a first attempt that finds the lock free acquires it and `Lock`
returns nil. -/
theorem lock_attempts_before_deadline_check (o : LockOptions)
    (start now : Int) (c : Bool) (tr : List Attempt)
    (hpos : 0 < o.waitTimeout) (hlate : start + o.waitTimeout < now) :
    goLock o start (Attempt.acquired :: tr) = LockOutcome.returned none ∧
    goLock o start (Attempt.contended now c :: tr) =
      LockOutcome.returned (some GoErr.lockTimeout) := by
  refine ⟨rfl, ?_⟩
  simp [goLock, hpos, hlate]

/-- Witness for C10 at a concrete input: a 2 s wait timeout with the
first wake-up already 3 s past call start — an attempt that finds the
lock free still acquires (nil), whereas a contended attempt at that same
instant would time out. -/
theorem lock_attempts_before_deadline_check_witness :
    goLock ⟨2000000000, 30000000000, false, 30000000000⟩ 0 [Attempt.acquired] =
      LockOutcome.returned none ∧
    goLock ⟨2000000000, 30000000000, false, 30000000000⟩ 0
        [Attempt.contended 3000000000 false] =
      LockOutcome.returned (some GoErr.lockTimeout) :=
  lock_attempts_before_deadline_check ⟨2000000000, 30000000000, false, 30000000000⟩
    0 3000000000 false [] (by decide) (by decide)

/-- `pexpire` on an existing key always replies 1. -/
theorem redisPexpire_snd (r : Record) (ms : Int) :
    (redisPexpire (some r) ms).2 = 1 := by
  by_cases hms : ms ≤ 0 <;> simp [redisPexpire, hms]

/-- When the handle token matches the record owner, `Refresh` returns
nil. -/
theorem goRefresh_err_of_owner (o : LockOptions) (token : String) (r : Record)
    (hown : r.owner = token) :
    ((goRefresh o token (some r)).1).2 = none := by
  have hp := redisPexpire_snd r (durMilliseconds (effectiveLease o))
  simp [goRefresh, luaRefresh, redisHgetOwner, hown, hp]

/-- C7: the watchdog goroutine ticks every `WatchDogTimeout / 3`,
calling `Refresh` with the handle's own token on each tick; it returns —
performing no further `Refresh`, whatever wake-ups would follow — as
soon as a `Refresh` call returns an error (store failure or
`ErrLockNotHeld`), the handle's stop signal (`watchDogCtx`) is raised,
or the initiating call's operation context is cancelled; and on every
such return it reaches `stopped`, i.e. the deferred
`close(watchDogDone)` signals completion. -/
theorem watchdog_loop_behavior (o : LockOptions) (token : String) (s : Store)
    (rest : List WDEvent) :
    (watchdogTickInterval o = o.watchDogTimeout.tdiv 3) ∧
    (watchdogRun o token (WDEvent.cancelSignal :: rest) s =
      (0, WDStatus.stopped, s)) ∧
    (watchdogRun o token (WDEvent.ctxCancelled :: rest) s =
      (0, WDStatus.stopped, s)) ∧
    (watchdogRun o token (WDEvent.tickStoreErr :: rest) s =
      (1, WDStatus.stopped, s)) ∧
    (redisHgetOwner s ≠ some token →
      watchdogRun o token (WDEvent.tick :: rest) s = (1, WDStatus.stopped, s)) ∧
    (∀ r : Record, s = some r → r.owner = token →
      (watchdogRun o token (WDEvent.tick :: rest) s).1 =
        (watchdogRun o token rest ((goRefresh o token s).1.1)).1 + 1) := by
  refine ⟨rfl, rfl, rfl, rfl, ?_, ?_⟩
  · intro hne
    simp [watchdogRun, goRefresh, luaRefresh, hne]
  · rintro r rfl hown
    have hnone := goRefresh_err_of_owner o token r hown
    rcases hval : (goRefresh o token (some r)).1 with ⟨s1, e⟩
    rw [hval] at hnone
    simp only at hnone
    subst hnone
    simp [watchdogRun, hval]

/-- Witness for C7 at concrete inputs: with the handle owning the
record, one tick performs one `Refresh` and leaves the loop running;
a tick that finds the record stolen performs the failing `Refresh` and
stops; a stop signal stops without any `Refresh`. -/
theorem watchdog_loop_behavior_witness :
    watchdogRun sampleWD "me" [WDEvent.tick]
        (some { owner := "me", ttl := some 1 }) =
      (1, WDStatus.running, some { owner := "me", ttl := some 30000 }) ∧
    watchdogRun sampleWD "me" [WDEvent.tick]
        (some { owner := "peer", ttl := some 1 }) =
      (1, WDStatus.stopped, some { owner := "peer", ttl := some 1 }) ∧
    watchdogRun sampleWD "me" [WDEvent.cancelSignal, WDEvent.tick]
        (some { owner := "me", ttl := some 1 }) =
      (0, WDStatus.stopped, some { owner := "me", ttl := some 1 }) := by
  refine ⟨?_, ?_, ?_⟩
  · have h := (watchdog_loop_behavior sampleWD "me"
      (some { owner := "me", ttl := some 1 }) []).2.2.2.2.2
      { owner := "me", ttl := some 1 } rfl rfl
    refine Prod.ext ?_ ?_
    · rw [h]
      decide
    · decide
  · exact (watchdog_loop_behavior sampleWD "me"
      (some { owner := "peer", ttl := some 1 }) []).2.2.2.2.1 (by decide)
  · exact (watchdog_loop_behavior sampleWD "me"
      (some { owner := "me", ttl := some 1 }) [WDEvent.tick]).2.1

/-- The watchdog start-guard invariant: at most one goroutine ever
launched, and none before `watchDogOnce` has fired. -/
def handleOnceInv (h : HandleState) : Prop :=
  h.tasks ≤ 1 ∧ (h.onceDone = false → h.tasks = 0)

/-- Every handle-lifetime operation sequence preserves the start-guard
invariant. -/
theorem runHandleOps_preserves_inv (ops : List HandleOp) (h : HandleState)
    (hh : handleOnceInv h) : handleOnceInv (runHandleOps ops h) := by
  induction ops generalizing h with
  | nil => simpa [runHandleOps] using hh
  | cons op rest ih =>
    cases op with
    | wdStart =>
      rw [runHandleOps]
      apply ih
      obtain ⟨h1, h2⟩ := hh
      unfold startWatchDog
      by_cases hc : h.onceDone
      · simpa [hc] using ⟨h1, h2⟩
      · have h0 : h.tasks = 0 := h2 (by simpa using hc)
        simp [hc, handleOnceInv, h0]
    | passive =>
      rw [runHandleOps]
      exact ih h hh

/-- C8: over a handle's entire lifetime — any sequence of successful
watchdog-enabled `TryLock` calls interleaved with other operations,
including successes after intervening `Unlock`s — the watchdog goroutine
is launched at most once. -/
theorem watchdog_started_at_most_once (ops : List HandleOp) :
    (runHandleOps ops initialHandle).tasks ≤ 1 :=
  (runHandleOps_preserves_inv ops initialHandle
    ⟨Nat.zero_le 1, fun _ => rfl⟩).1

/-- The invariant holds initially. -/
theorem sysInv_init : SysInv initSys := by
  refine ⟨?_, ?_, ?_, ?_⟩ <;> simp [SysInv, initSys]

/-- Every interleaving step preserves the invariant. -/
theorem sysInv_step (a b : Sys) (hstep : Step a b) (ha : SysInv a) : SysInv b := by
  obtain ⟨i1, i2, i3, i4⟩ := ha
  cases hstep with
  | tickFires hw =>
    refine ⟨?_, ?_, ?_, ?_⟩ <;> simp_all
  | wdSeesCancel hw hc =>
    refine ⟨?_, ?_, ?_, ?_⟩ <;> simp_all
  | wdAcquires hw hm =>
    refine ⟨?_, ?_, ?_, ?_⟩ <;> simp_all
  | wdRefreshOk hw =>
    refine ⟨?_, ?_, ?_, ?_⟩ <;> simp_all
  | wdRefreshErr hw =>
    refine ⟨?_, ?_, ?_, ?_⟩ <;> simp_all
  | wdCloses hw =>
    refine ⟨?_, ?_, ?_, ?_⟩ <;> simp_all
  | unAcquires hu hm =>
    refine ⟨?_, ?_, ?_, ?_⟩ <;> simp_all
  | unCancels hu =>
    refine ⟨?_, ?_, ?_, ?_⟩ <;> simp_all
  | unSeesDone hu hd =>
    refine ⟨?_, ?_, ?_, ?_⟩ <;> simp_all
  | unDeletes hu =>
    refine ⟨?_, ?_, ?_, ?_⟩ <;> simp_all

/-- The invariant holds in every reachable state. -/
theorem sysInv_reachable (s : Sys) (h : Reachable s) : SysInv s := by
  have hrtg : Relation.ReflTransGen Step initSys s := h
  induction hrtg with
  | refl => exact sysInv_init
  | tail hab hbc ih => exact sysInv_step _ _ hbc (ih hab)

/-- C9: in every reachable interleaving of the watchdog goroutine with
an `Unlock` call on the same handle, the conditional-delete eval runs
only after the watchdog goroutine has fully stopped (and `watchDogDone`
closed), so no watchdog `Refresh` is in flight concurrently with the
delete; and the handle mutex excludes the watchdog's `Refresh` critical
section from `Unlock`'s critical section. -/
theorem unlock_delete_excludes_watchdog (s : Sys) (hr : Reachable s) :
    (s.un = UnPc.del → s.wd = WdPc.dead) ∧
    ¬(s.wd = WdPc.refr ∧
      (s.un = UnPc.cancel ∨ s.un = UnPc.wait ∨ s.un = UnPc.del)) := by
  obtain ⟨i1, i2, i3, i4⟩ := sysInv_reachable s hr
  refine ⟨fun hdel => i1 (i4 hdel), ?_⟩
  rintro ⟨hrefr, hcrit⟩
  have h1 := i2 hrefr
  have h2 := i3 hcrit
  rw [h1] at h2
  exact Tid.noConfusion (Option.some.inj h2)

/-- The state at the point `Unlock` performs the delete eval after a
complete stop handshake: watchdog dead, done closed, mutex held by the
unlocking thread. -/
def sysDel : Sys :=
  { wd := WdPc.dead, un := UnPc.del, mu := some Tid.un
    cancelled := true, done := true }

/-- `sysDel` is reachable: `Unlock` takes the mutex, cancels, the
watchdog observes the cancel and returns, `done` closes, and `Unlock`
proceeds to the delete. -/
theorem reachable_sysDel : Reachable sysDel := by
  have h1 : Step initSys ⟨WdPc.sel, UnPc.cancel, some Tid.un, false, false⟩ :=
    Step.unAcquires initSys rfl rfl
  have h2 : Step ⟨WdPc.sel, UnPc.cancel, some Tid.un, false, false⟩
      ⟨WdPc.sel, UnPc.wait, some Tid.un, true, false⟩ :=
    Step.unCancels _ rfl
  have h3 : Step ⟨WdPc.sel, UnPc.wait, some Tid.un, true, false⟩
      ⟨WdPc.ret, UnPc.wait, some Tid.un, true, false⟩ :=
    Step.wdSeesCancel _ rfl rfl
  have h4 : Step ⟨WdPc.ret, UnPc.wait, some Tid.un, true, false⟩
      ⟨WdPc.dead, UnPc.wait, some Tid.un, true, true⟩ :=
    Step.wdCloses _ rfl
  have h5 : Step ⟨WdPc.dead, UnPc.wait, some Tid.un, true, true⟩ sysDel :=
    Step.unSeesDone _ rfl rfl
  exact Relation.ReflTransGen.tail
    (Relation.ReflTransGen.tail
      (Relation.ReflTransGen.tail
        (Relation.ReflTransGen.tail (Relation.ReflTransGen.single h1) h2) h3) h4) h5

/-- Witness for C9 at a concrete reachable state: at the very state in
which the delete eval runs, the watchdog is dead (not refreshing). -/
theorem unlock_delete_excludes_watchdog_witness :
    (sysDel.un = UnPc.del → sysDel.wd = WdPc.dead) ∧
    ¬(sysDel.wd = WdPc.refr ∧
      (sysDel.un = UnPc.cancel ∨ sysDel.un = UnPc.wait ∨ sysDel.un = UnPc.del)) :=
  unlock_delete_excludes_watchdog sysDel reachable_sysDel

end Arbiter
